import Mathlib

/-!
Shallow embedding of the tbgp BGP speaker core (Go) in Lean 4.

Components modelled, each from the corresponding Go source:
* `net` package: `Prefix`, `Contains`, `Equal`, `GetSupernet`.
* `lpm` package: the compressed binary trie (`Insert`, `Get`, `LPM`).
* `packet` package: the wire codec (`_decodeHeader`, `decodeUpdateMsg`,
  `decodeNLRI`, `_decodeNotificationMsg`, path attributes).
* `server` package: the per-peer FSM handlers relevant to the claims.

Go machine integers are modelled as `Nat` with explicit wrap-around:
a `uint8`/`uint16`/`uint32` value is a `Nat` kept below `2^8`/`2^16`/`2^32`
by the operations themselves (`% 256`, `% 65536`, `% 2^32`).  Go shifts of
an unsigned integer by a count `≥` its width produce `0`; this is matched
by reducing the shifted result modulo the width (for left shifts) and by
the fact that a `Nat` below `2^32` right-shifted by `≥ 32` is `0`.
-/

namespace TBGP

/-- Go `uint32` left shift: `(x << s) mod 2^32` (shift counts `≥ 32` give `0`
because `x < 2^32` makes the product a multiple of `2^32`). -/
def shl32 (x s : Nat) : Nat := (x <<< s) % 2 ^ 32

/-- Go `uint8` subtraction `a - b` for `a b < 256`: wraps modulo 256 (the
literal leads the addition so terms stay well-behaved under reduction). -/
def sub8 (a b : Nat) : Nat := (256 + a - b % 256) % 256

/-- Go `uint16` subtraction `a - b` for `a b < 65536`: wraps modulo 65536. -/
def sub16 (a b : Nat) : Nat := (65536 + a - b % 65536) % 65536

/-! ## The `net` package: IPv4 prefixes -/

/-- Structure `Prefix` from `net/prefix.go`: an IPv4 prefix `(addr uint32, pfxlen uint8)`. -/
structure Pfx where
  addr : Nat
  pfxlen : Nat
deriving DecidableEq, Repr

/-- Constructor `NewPfx` from `net/prefix.go`. -/
def NewPfx (addr pfxlen : Nat) : Pfx := ⟨addr, pfxlen⟩

/-- The mask computed inside `Prefix.Contains`:
Go `uint32(1) << (32 - pfx.pfxlen)` where `32 - pfx.pfxlen` is `uint8`
arithmetic.  This is a single-bit mask (or `0` when the shift count is
`≥ 32`), not a run of `pfxlen` top bits. -/
def containsMask (pfxlen : Nat) : Nat :=
  (1 <<< ((32 + 256 - pfxlen % 256) % 256)) % 2 ^ 32

/-- Function `Prefix.Contains` from `net/prefix.go`, translated literally:

    if x.pfxlen <= pfx.pfxlen { return false }
    mask := (uint32(1) << (32 - pfx.pfxlen))
    return (pfx.addr & mask) == (x.addr & mask)
-/
def Pfx.Contains (pfx x : Pfx) : Bool :=
  if x.pfxlen ≤ pfx.pfxlen then false
  else (pfx.addr &&& containsMask pfx.pfxlen) == (x.addr &&& containsMask pfx.pfxlen)

/-- Function `Prefix.Equal` from `net/prefix.go`: value equality `*pfx == *x`. -/
def Pfx.Equal (pfx x : Pfx) : Bool := pfx == x

/-- The containment relation as the specification words it: `x.pfxlen >
self.pfxlen` and the top `self.pfxlen` bits of `x.addr` equal the top
`self.pfxlen` bits of `self.addr` (top `n` bits of a 32-bit word being the
word shifted right by `32 - n`). -/
def specContains (pfx x : Pfx) : Prop :=
  x.pfxlen > pfx.pfxlen ∧ x.addr >>> (32 - pfx.pfxlen) = pfx.addr >>> (32 - pfx.pfxlen)

instance (pfx x : Pfx) : Decidable (specContains pfx x) := by
  unfold specContains; infer_instance

/-- The loop of `Prefix.GetSupernet`:

    for i := 0; a != b; i++ { a = a >> 1; b = b >> 1; maxPfxLen-- }

`maxPfxLen` is a Go `uint8`, so the decrement wraps modulo 256.
Returns the final `(a, maxPfxLen)`. -/
def snLoop (a b L : Nat) : Nat × Nat :=
  if a = b then (a, L)
  else snLoop (a >>> 1) (b >>> 1) ((255 + L) % 256)
termination_by a + b
decreasing_by
  have ha : a >>> 1 = a / 2 := Nat.shiftRight_one a
  have hb : b >>> 1 = b / 2 := Nat.shiftRight_one b
  rw [ha, hb]
  rcases Nat.eq_zero_or_pos (a + b) with h0 | h0
  · exact absurd (by omega : a = b) (by assumption)
  · calc a / 2 + b / 2 ≤ (a + b) / 2 := by omega
      _ < a + b := Nat.div_lt_self h0 (by omega)

/-- Function `Prefix.GetSupernet` from `net/prefix.go`:

    maxPfxLen := min(pfx.pfxlen, x.pfxlen) - 1
    a := pfx.addr >> (32 - maxPfxLen)
    b := x.addr >> (32 - maxPfxLen)
    for i := 0; a != b; i++ { a >>= 1; b >>= 1; maxPfxLen-- }
    return &Prefix{addr: a << (32 - maxPfxLen), pfxlen: maxPfxLen}

All of `maxPfxLen`, the subtraction `min - 1` and the shift counts
`32 - maxPfxLen` are Go `uint8` arithmetic. -/
def Pfx.GetSupernet (pfx x : Pfx) : Pfx :=
  let maxPfxLen0 := sub8 (min pfx.pfxlen x.pfxlen) 1
  let a0 := pfx.addr >>> ((32 + 256 - maxPfxLen0) % 256)
  let b0 := x.addr >>> ((32 + 256 - maxPfxLen0) % 256)
  let r := snLoop a0 b0 maxPfxLen0
  ⟨shl32 r.1 ((32 + 256 - r.2) % 256), r.2⟩

/-! ## The `lpm` package: compressed binary trie

A Go `*node` pointer is modelled by `NodeP`, with `NodeP.nil` for the nil
pointer, so the source's nil checks translate to pattern matches. -/

/-- Trie node from `lpm/lpm.go`: `(skip uint8, dummy bool, pfx *net.Prefix,
l, h *node)`, with `nil` as an explicit constructor. -/
inductive NodeP where
  | nil : NodeP
  | node (skip : Nat) (dummy : Bool) (pfx : Pfx) (l h : NodeP) : NodeP
deriving DecidableEq, Repr

/-- Function `getBitUint32` from `lpm/lpm.go`:
`return ((x) & (1 << (32 - pos))) != 0` with `pos` a `uint8` and the mask a
`uint32` (so a shift count `≥ 32` gives mask `0`). -/
def getBitUint32 (x pos : Nat) : Bool :=
  (x &&& ((1 <<< ((32 + 256 - pos % 256) % 256)) % 2 ^ 32)) ≠ 0

/-- Function `newNode` from `lpm/lpm.go`. -/
def newNode (pfx : Pfx) (skip : Nat) (dummy : Bool) : NodeP :=
  .node skip dummy pfx .nil .nil

/-- Method `node.lpm` from `lpm/lpm.go`; the Go accumulator `*res` becomes
an explicit list argument. -/
def NodeP.lpm (n : NodeP) (needle : Pfx) (res : List Pfx) : List Pfx :=
  match n with
  | .nil => res
  | .node _ dummy pfx l h =>
    if pfx == needle && !dummy then res ++ [pfx]
    else if !(pfx.Contains needle) then res
    else
      let res1 := if !dummy then res ++ [pfx] else res
      NodeP.lpm h needle (NodeP.lpm l needle res1)

/-- Method `node.dumpPfxs` from `lpm/lpm.go`.  Note the Go code returns
`nil` (discarding the accumulator) when called on a nil node, and guards
the child recursions with nil checks. -/
def NodeP.dumpPfxs (n : NodeP) (res : List Pfx) : List Pfx :=
  match n with
  | .nil => []
  | .node _ dummy pfx l h =>
    let res1 := if !dummy then res ++ [pfx] else res
    let res2 := match l with
      | .nil => res1
      | _ => l.dumpPfxs res1
    match h with
    | .nil => res2
    | _ => h.dumpPfxs res2

/-- Method `node.get` from `lpm/lpm.go` (result is the found node, or the
nil node). -/
def NodeP.get (n : NodeP) (pfx : Pfx) : NodeP :=
  match n with
  | .nil => .nil
  | .node skip dummy npfx l h =>
    if npfx == pfx then
      if dummy then .nil else .node skip dummy npfx l h
    else if npfx.pfxlen > pfx.pfxlen then .nil
    else if !(getBitUint32 pfx.addr (npfx.pfxlen + 1)) then l.get pfx
    else h.get pfx

/-- Method `node.insertChildren` from `lpm/lpm.go`: places the old node and
a new leaf for `newPfx` under the (pseudo) node `n` by their decision bits
at position `n.pfx.pfxlen + 1`, recomputing the old node's skip.  All skip
arithmetic is Go `uint8` arithmetic. -/
def NodeP.insertChildren (n old : NodeP) (newPfx : Pfx) : NodeP :=
  match n, old with
  | .node skip dummy pfx l h, .node _ odummy opfx ol oh =>
    let old1 := NodeP.node (sub8 (sub8 opfx.pfxlen pfx.pfxlen) 1) odummy opfx ol oh
    let b := getBitUint32 opfx.addr (pfx.pfxlen + 1)
    let l1 := if !b then old1 else l
    let h1 := if !b then h else old1
    let nn := newNode newPfx (sub8 (sub8 newPfx.pfxlen pfx.pfxlen) 1) false
    let b2 := getBitUint32 newPfx.addr (pfx.pfxlen + 1)
    if !b2 then NodeP.node skip dummy pfx nn h1
    else NodeP.node skip dummy pfx l1 nn
  | _, _ => .nil

/-- Method `node.newSuperNode` from `lpm/lpm.go`: create a dummy ancestor
equal to `pfx.GetSupernet(n.pfx)` and hang `n` and a new leaf for `pfx`
beneath it.  Note the dummy's skip is `n.skip - (n.pfx.pfxlen - super.pfxlen)`
in `uint8` arithmetic. -/
def NodeP.newSuperNode (n : NodeP) (pfx : Pfx) : NodeP :=
  match n with
  | .nil => .nil
  | .node skip dummy npfx l h =>
    let superNet := pfx.GetSupernet npfx
    let pfxLenDiff := sub8 npfx.pfxlen superNet.pfxlen
    let pseudoNode := newNode superNet (sub8 skip pfxLenDiff) true
    pseudoNode.insertChildren (NodeP.node skip dummy npfx l h) pfx

/-- Method `node.insertBefore` from `lpm/lpm.go`: make `pfx` the parent of
`n`, the side chosen by `getBitUint32(pfx.addr, parentPfxLen)`. -/
def NodeP.insertBefore (n : NodeP) (pfx : Pfx) (parentPfxLen : Nat) : NodeP :=
  match n with
  | .nil => .nil
  | .node skip dummy npfx l h =>
    let pfxLenDiff := sub8 npfx.pfxlen pfx.pfxlen
    let skip1 := sub8 skip pfxLenDiff
    let b := getBitUint32 pfx.addr parentPfxLen
    let tmp := NodeP.node (sub8 (sub8 npfx.pfxlen pfx.pfxlen) 1) dummy npfx l h
    if !b then NodeP.node skip1 false pfx tmp .nil
    else NodeP.node skip1 false pfx .nil tmp

/-- Method `node.insert` from `lpm/lpm.go`.  The source's helpers
`insertLow`/`insertHigh` are inlined here (each is a nil check on the
child followed by either attaching a fresh leaf with skip
`pfx.pfxlen - parentPfxLen - 1` or recursing); that keeps the recursion
structural.  Never called on a nil node (`LPM.Insert` guards the root). -/
def NodeP.insert (n : NodeP) (pfx : Pfx) : NodeP :=
  match n with
  | .nil => .nil
  | .node skip dummy npfx l h =>
    if npfx == pfx then NodeP.node skip dummy npfx l h
    else if !(npfx.Contains pfx) then
      if pfx.Contains npfx then
        (NodeP.node skip dummy npfx l h).insertBefore pfx (sub8 (sub8 npfx.pfxlen skip) 1)
      else (NodeP.node skip dummy npfx l h).newSuperNode pfx
    else if !(getBitUint32 pfx.addr (npfx.pfxlen + 1)) then
      match l with
      | .nil => NodeP.node skip dummy npfx (newNode pfx (sub8 (sub8 pfx.pfxlen npfx.pfxlen) 1) false) h
      | _ => NodeP.node skip dummy npfx (l.insert pfx) h
    else
      match h with
      | .nil => NodeP.node skip dummy npfx l (newNode pfx (sub8 (sub8 pfx.pfxlen npfx.pfxlen) 1) false)
      | _ => NodeP.node skip dummy npfx l (h.insert pfx)

/-- Structure `LPM` from `lpm/lpm.go`, named `LPMTable` here because the
source names both the type and its longest-prefix-match method `LPM` (the
`nodes` counter is never
updated by the source operations and is carried unchanged). -/
structure LPMTable where
  root : NodeP
  nodes : Nat
deriving DecidableEq, Repr

/-- Function `New` from `lpm/lpm.go`. -/
def LPMTable.New : LPMTable := ⟨.nil, 0⟩

/-- Method `LPM.Insert` from `lpm/lpm.go`. -/
def LPMTable.Insert (t : LPMTable) (pfx : Pfx) : LPMTable :=
  match t.root with
  | .nil => { t with root := newNode pfx pfx.pfxlen false }
  | r => { t with root := r.insert pfx }

/-- Method `LPM.Get` from `lpm/lpm.go`. -/
def LPMTable.Get (t : LPMTable) (pfx : Pfx) (moreSpecifics : Bool) : List Pfx :=
  match t.root with
  | .nil => []
  | r =>
    let n := r.get pfx
    if moreSpecifics then n.dumpPfxs []
    else
      match n with
      | .nil => []
      | .node _ _ npfx _ _ => [npfx]

/-- Method `LPM.LPM` from `lpm/lpm.go`. -/
def LPMTable.LPM (t : LPMTable) (pfx : Pfx) : List Pfx :=
  match t.root with
  | .nil => []
  | r => r.lpm pfx []

/-- Modelled from the spec: `LPM.Remove` is called by the FSM's Established
handler but is not among the repository's files (only its caller is).  Per
the spec (§4.2): locate `pfx` by descending on decision bits; flip the
`dummy` flag to true on the matched node (pruning is optional and not
modelled). -/
def NodeP.remove (n : NodeP) (pfx : Pfx) : NodeP :=
  match n with
  | .nil => .nil
  | .node skip dummy npfx l h =>
    if npfx == pfx then .node skip true npfx l h
    else if npfx.pfxlen > pfx.pfxlen then .node skip dummy npfx l h
    else if !(getBitUint32 pfx.addr (npfx.pfxlen + 1)) then
      .node skip dummy npfx (l.remove pfx) h
    else .node skip dummy npfx l (h.remove pfx)

/-- Modelled from the spec: see `NodeP.remove`. -/
def LPMTable.Remove (t : LPMTable) (pfx : Pfx) : LPMTable :=
  { t with root := t.root.remove pfx }

/-! ## The `packet` package: wire codec

A `bytes.Buffer` is a `List Nat` of byte values consumed from the front.
Go errors are `GoErr`: `GoErr.bgp` for a `packet.BGPError` value (carrying
error code and subcode) and `GoErr.str` for a plain `fmt.Errorf` error. -/

/-- Constants from `packet/bgp.go`. -/
def OctetLen : Nat := 8

def MarkerLen : Nat := 16

def HeaderLen : Nat := 19

def MinLen : Nat := 19

def MaxLen : Nat := 4096

def OpenMsg : Nat := 1

def UpdateMsg : Nat := 2

def NotificationMsg : Nat := 3

def KeepaliveMsg : Nat := 4

def MessageHeaderError : Nat := 1

def OpenMessageError : Nat := 2

def UpdateMessageError : Nat := 3

def HoldTimeExpired : Nat := 4

def FiniteStateMachineError : Nat := 5

def Cease : Nat := 6

def ConnectionNotSync : Nat := 1

def BadMessageLength : Nat := 2

def BadMessageType : Nat := 3

def UnsupportedVersionNumber : Nat := 1

def BadPeerAS : Nat := 2

def BadBGPIdentifier : Nat := 3

def UnsupportedOptionalParameter : Nat := 4

def DeprecatedOpenMsgError5 : Nat := 5

def UnacceptableHoldTime : Nat := 6

def MalformedAttributeList : Nat := 1

def UnrecognizedWellKnownAttr : Nat := 2

def MissingWellKnonAttr : Nat := 3

def AttrFlagsError : Nat := 4

def AttrLengthError : Nat := 5

def InvalidOriginAttr : Nat := 6

def DeprecatedUpdateMsgError7 : Nat := 7

def InvalidNextHopAttr : Nat := 8

def OptionalAttError : Nat := 9

def InvalidNetworkField : Nat := 10

def MalformedASPath : Nat := 11

def OriginAttr : Nat := 1

def ASPathAttr : Nat := 2

def NextHopAttr : Nat := 3

def MEDAttr : Nat := 4

def LocalPrefAttr : Nat := 5

def AtomicAggrAttr : Nat := 6

def AggregatorAttr : Nat := 7

def ASSet : Nat := 1

def ASSequence : Nat := 2

/-- Modelled from the spec: the constants `BGP4Version` (OPEN version must
be 4, spec §4.3) and `ConnectionCollisionResolution` (a Cease subcode, RFC
value 7) are referenced by the sources but declared in a file that is not
among the repository's files. -/
def BGP4Version : Nat := 4

/-- Modelled from the spec: see `BGP4Version`. -/
def ConnectionCollisionResolution : Nat := 7

/-- Go error values: a `packet.BGPError` (struct with `ErrorCode`,
`ErrorSubCode`, `ErrorStr`) or a plain error built by `fmt.Errorf`.
The distinction matters: a type switch `err.(type)` matches
`packet.BGPError` only for the former. -/
inductive GoErr where
  | bgp (code subcode : Nat) (msg : String)
  | str (msg : String)
deriving DecidableEq, Repr

instance {ε α : Type} [DecidableEq ε] [DecidableEq α] : DecidableEq (Except ε α) := fun x y => by
  cases x <;> cases y
  case error.error e f =>
    exact if h : e = f then .isTrue (by simp [h]) else .isFalse (by simp [h])
  case ok.ok a b =>
    exact if h : a = b then .isTrue (by simp [h]) else .isFalse (by simp [h])
  case error.ok e a => exact .isFalse (by simp)
  case ok.error a e => exact .isFalse (by simp)

/-- Big-endian read of one byte (Go `binary.Read` of a `uint8`). -/
def readU8 (buf : List Nat) : Option (Nat × List Nat) :=
  match buf with
  | [] => none
  | b :: rest => some (b, rest)

/-- Big-endian read of a `uint16`. -/
def readU16 (buf : List Nat) : Option (Nat × List Nat) :=
  match buf with
  | b1 :: b2 :: rest => some (b1 * 256 + b2, rest)
  | _ => none

/-- Big-endian read of a `uint32`. -/
def readU32 (buf : List Nat) : Option (Nat × List Nat) :=
  match buf with
  | b1 :: b2 :: b3 :: b4 :: rest =>
    some (((b1 * 256 + b2) * 256 + b3) * 256 + b4, rest)
  | _ => none

/-- Structure `BGPHeader` (used by `decoder.go`): length and type (the Go
field `Type` is `Typ` here, `Type` being a Lean keyword). -/
structure BGPHeader where
  Length : Nat
  Typ : Nat
deriving DecidableEq, Repr

/-- Structure `BGPOpen`. -/
structure BGPOpen where
  Version : Nat
  AS : Nat
  HoldTime : Nat
  BGPIdentifier : Nat
  OptParmLen : Nat
deriving DecidableEq, Repr

/-- Structure `BGPNotification`. -/
structure BGPNotification where
  ErrorCode : Nat
  ErrorSubcode : Nat
deriving DecidableEq, Repr

/-- Structure `NLRI` (the linked list `Next` becomes a `List NLRI` where
the decoders return several). `IP` is the 4-byte address, wire order. -/
structure NLRI where
  Pfxlen : Nat
  IP : List Nat
deriving DecidableEq, Repr

/-- Structure `ASPathSegment` (`Type` is `SegType` here). -/
structure ASPathSegment where
  SegType : Nat
  Count : Nat
  ASNs : List Nat
deriving DecidableEq, Repr

/-- Value of a path attribute (`pa.Value interface{}` in Go): `noneV`
models a nil `interface{}` (never assigned). -/
inductive AttrValue where
  | noneV
  | origin (v : Nat)
  | asPath (segs : List ASPathSegment)
  | nextHop (addr : List Nat)
  | med (v : Nat)
  | localPref (v : Nat)
  | aggregator (asn : Nat) (addr : List Nat)
deriving DecidableEq, Repr

/-- Structure `PathAttribute` (the linked list `Next` becomes a list; the
Go field `Partial` is `PartialBit` here). -/
structure PathAttribute where
  Optional : Bool
  Transitive : Bool
  PartialBit : Bool
  ExtendedLength : Bool
  TypeCode : Nat
  Length : Nat
  Value : AttrValue
deriving DecidableEq, Repr

/-- Structure `BGPUpdate`. -/
structure BGPUpdate where
  WithdrawnRoutesLen : Nat
  WithdrawnRoutes : List NLRI
  TotalPathAttrLen : Nat
  PathAttributes : List PathAttribute
  NLRI : List TBGP.NLRI
deriving DecidableEq, Repr

/-- Message body (`interface{}` in Go, a tagged sum here; KEEPALIVE has no
body). -/
inductive Body where
  | openB (o : BGPOpen)
  | updateB (u : BGPUpdate)
  | keepaliveB
  | notificationB (n : BGPNotification)
deriving DecidableEq, Repr

/-- Structure `BGPMessage`. -/
structure BGPMessage where
  Header : BGPHeader
  Body : TBGP.Body
deriving DecidableEq, Repr

/-- Function `_decodeHeader` from `decoder.go` (the variant returning
`BGPError` values).  A short buffer yields `BGPError{Cease, 0, ...}`; a
non-0xFF marker byte yields `MessageHeaderError/ConnectionNotSync`; a
length outside `19..=4096` yields `MessageHeaderError/BadMessageLength`;
a type outside `1..=4` yields `MessageHeaderError/BadMessageType`. -/
def _decodeHeader (buf : List Nat) : Except GoErr (BGPHeader × List Nat) :=
  if buf.length < MarkerLen then
    .error (.bgp Cease 0 "Unable to read marker")
  else if (buf.take MarkerLen).any (fun b => b ≠ 255) then
    .error (.bgp MessageHeaderError ConnectionNotSync "Invalid marker")
  else
    match readU16 (buf.drop MarkerLen) with
    | none => .error (.bgp Cease 0 "Unable to read from buffer")
    | some (len, rest2) =>
      match readU8 rest2 with
      | none => .error (.bgp Cease 0 "Unable to read from buffer")
      | some (typ, rest3) =>
        if len < MinLen ∨ len > MaxLen then
          .error (.bgp MessageHeaderError BadMessageLength "Invalid length in BGP header")
        else if typ > KeepaliveMsg ∨ typ = 0 then
          .error (.bgp MessageHeaderError BadMessageType "Invalid message type")
        else .ok ({ Length := len, Typ := typ }, rest3)

/-- Function `_decodeNotificationMsg` from `decoder.go`: reads error code
and subcode and validates the pair (error code `1..=6`, per-code subcode
ranges; `invalidErrCode` is the shared failure). -/
def _decodeNotificationMsg (buf : List Nat) : Except GoErr (BGPNotification × List Nat) :=
  match readU8 buf with
  | none => .error (.str "Unable to read from buffer")
  | some (c, r1) =>
    match readU8 r1 with
    | none => .error (.str "Unable to read from buffer")
    | some (s, r2) =>
      if c > Cease then .error (.str "Invalid error code")
      else if c = MessageHeaderError then
        if s > BadMessageType ∨ s = 0 then .error (.str "Invalid error sub code")
        else .ok (⟨c, s⟩, r2)
      else if c = OpenMessageError then
        if s > UnacceptableHoldTime ∨ s = 0 ∨ s = DeprecatedOpenMsgError5 then
          .error (.str "Invalid error sub code")
        else .ok (⟨c, s⟩, r2)
      else if c = UpdateMessageError then
        if s > MalformedASPath ∨ s = 0 ∨ s = DeprecatedUpdateMsgError7 then
          .error (.str "Invalid error sub code")
        else .ok (⟨c, s⟩, r2)
      else if c = HoldTimeExpired then
        if s ≠ 0 then .error (.str "Invalid error sub code") else .ok (⟨c, s⟩, r2)
      else if c = FiniteStateMachineError then
        if s ≠ 0 then .error (.str "Invalid error sub code") else .ok (⟨c, s⟩, r2)
      else if c = Cease then
        if s ≠ 0 then .error (.str "Invalid error sub code") else .ok (⟨c, s⟩, r2)
      else .error (.str "Invalid error sub code")

/-- Function `isValidIdentifier` from `decoder.go`: the 4-byte value must
not be loopback (first byte 127), multicast (first byte `0xE0..0xEF`),
`0.x.x.x`, or `255.255.255.255`. -/
def isValidIdentifier (id : Nat) : Bool :=
  let b0 := id / 2 ^ 24 % 256
  !(b0 == 127) && !(b0 &&& 0xF0 == 0xE0) && !(b0 == 0) && !(id % 2 ^ 32 == 0xFFFFFFFF)

/-- Function `validateOpen` from `decoder.go`. -/
def validateOpen (msg : BGPOpen) : Option GoErr :=
  if msg.Version ≠ BGP4Version then
    some (.bgp OpenMessageError UnsupportedVersionNumber "Unsupported version number")
  else if !(isValidIdentifier msg.BGPIdentifier) then
    some (.bgp OpenMessageError BadBGPIdentifier "Invalid BGP identifier")
  else none

/-- Function `_decodeOpenMsg` from `decoder.go`. -/
def _decodeOpenMsg (buf : List Nat) : Except GoErr (BGPOpen × List Nat) :=
  match readU8 buf with
  | none => .error (.str "Unable to read from buffer")
  | some (version, r1) =>
    match readU16 r1 with
    | none => .error (.str "Unable to read from buffer")
    | some (as2, r2) =>
      match readU16 r2 with
      | none => .error (.str "Unable to read from buffer")
      | some (holdTime, r3) =>
        match readU32 r3 with
        | none => .error (.str "Unable to read from buffer")
        | some (ident, r4) =>
          match readU8 r4 with
          | none => .error (.str "Unable to read from buffer")
          | some (optParmLen, r5) =>
            let msg : BGPOpen := ⟨version, as2, holdTime, ident, optParmLen⟩
            match validateOpen msg with
            | some e => .error e
            | none => .ok (msg, r5)

/-- Function `decodeNLRI` from `decoder.go`: reads the prefix length, then
`min(toCopy, 4)` address bytes where `toCopy = ceil(pfxlen/8)` (the Go
loop runs `i` over `0..<4` and reads only while `i < toCopy`), zero-fills
the remaining bytes of the 4-byte address, and reports `toCopy + 1` bytes
consumed (a `uint8`; `toCopy ≤ 32`, so no wrap).  `math.Ceil` over
`float64` is exact for `pfxlen ≤ 255`, hence `(pfxlen + 7) / 8`. -/
def decodeNLRI (buf : List Nat) : Except GoErr (NLRI × Nat × List Nat) :=
  match buf with
  | [] => .error (.str "Unable to read from buffer")
  | pfxlen :: r1 =>
    let toCopy := (pfxlen + 7) / 8
    let nread := min toCopy 4
    if r1.length < nread then .error (.str "Unable to read from buffer")
    else
      .ok ({ Pfxlen := pfxlen, IP := r1.take nread ++ List.replicate (4 - nread) 0 },
           toCopy + 1, r1.drop nread)

/-- Termination helper: a successful `decodeNLRI` consumes at least the
prefix-length byte. -/
theorem decodeNLRI_rest_length {buf : List Nat} {nlri : NLRI} {c : Nat} {rest : List Nat}
    (h : decodeNLRI buf = .ok (nlri, c, rest)) : rest.length < buf.length := by
  match buf with
  | [] => simp [decodeNLRI] at h
  | pfxlen :: r1 =>
    simp only [decodeNLRI] at h
    split at h
    · simp at h
    · simp only [Except.ok.injEq, Prod.mk.injEq] at h
      have : rest = r1.drop (min ((pfxlen + 7) / 8) 4) := h.2.2.symm
      subst this
      simp only [List.length_drop, List.length_cons]
      omega

/-- Function `decodeNLRIs` from `decoder.go`: decodes NLRIs while the
consumed-bytes counter `p` (a `uint16`, accumulated modulo `2^16`) is
below `l`.  Note the loop can overshoot `l`: it stops at the first `p ≥ l`
after whole NLRIs. -/
def decodeNLRIs (buf : List Nat) (l p : Nat) : Except GoErr (List NLRI × List Nat) :=
  if p < l then
    match hm : decodeNLRI buf with
    | .error _ => .error (.str "Unable to decode NLRI")
    | .ok (nlri, c, rest) =>
      match decodeNLRIs rest l ((p + c) % 65536) with
      | .error e => .error e
      | .ok (ns, rest2) => .ok (nlri :: ns, rest2)
  else .ok ([], buf)
termination_by buf.length
decreasing_by exact decodeNLRI_rest_length hm

/-- Function `dumpNBytes` from `decoder.go`: drop `n` bytes (used to drain
an attribute's excess declared length). -/
def dumpNBytes (n : Nat) (buf : List Nat) : Except GoErr (List Nat) :=
  if n = 0 then .ok buf
  else if buf.length < n then .error (.str "Unable to read from buffer")
  else .ok (buf.drop n)

theorem dumpNBytes_length_le {n : Nat} {buf rest : List Nat}
    (h : dumpNBytes n buf = .ok rest) : rest.length ≤ buf.length := by
  simp only [dumpNBytes] at h
  split at h
  · simp at h; subst h; exact Nat.le_refl _
  · split at h
    · simp at h
    · simp at h; subst h; simp

/-- Method `decodeOrigin` from `decoder.go`, combined with the fact that
its caller (`decodePathAttrs`, case `OriginAttr`) discards the returned
error: on a short read the value stays unassigned; a failing `dumpNBytes`
drains the buffer (Go `binary.Read` into a byte slice uses `io.ReadFull`)
but the origin value is already assigned. -/
def decodeOriginI (len : Nat) (buf : List Nat) : AttrValue × List Nat :=
  match buf with
  | [] => (.noneV, buf)
  | v :: r1 =>
    match dumpNBytes (sub16 len 1) r1 with
    | .ok r2 => (.origin v, r2)
    | .error _ => (.origin v, [])

theorem decodeOriginI_length_le (len : Nat) (buf : List Nat) :
    (decodeOriginI len buf).2.length ≤ buf.length := by
  match buf with
  | [] => exact Nat.le_refl _
  | v :: r1 =>
    simp only [decodeOriginI]
    cases hr : dumpNBytes (sub16 len 1) r1 with
    | ok r2 =>
      have := dumpNBytes_length_le hr
      simp only [List.length_cons]
      omega
    | error e =>
      simp only [List.length_nil, List.length_cons]
      omega

/-- The inner ASN loop of `decodeASPath`: reads `count` big-endian `uint16`
AS numbers. -/
def readASNs (count : Nat) (buf : List Nat) : Except GoErr (List Nat × List Nat) :=
  match count with
  | 0 => .ok ([], buf)
  | k + 1 =>
    match readU16 buf with
    | none => .error (.str "Unable to read from buffer")
    | some (asn, r1) =>
      match readASNs k r1 with
      | .error e => .error e
      | .ok (asns, r2) => .ok (asn :: asns, r2)

theorem readASNs_length_le {count : Nat} {buf asns rest : List Nat}
    (h : readASNs count buf = .ok (asns, rest)) : rest.length ≤ buf.length := by
  induction count generalizing buf asns rest with
  | zero =>
    simp only [readASNs, Except.ok.injEq, Prod.mk.injEq] at h
    rw [← h.2]
  | succ k ih =>
    simp only [readASNs] at h
    cases hb : readU16 buf with
    | none => rw [hb] at h; simp at h
    | some v =>
      obtain ⟨asn, r1⟩ := v
      rw [hb] at h
      simp only at h
      cases hr : readASNs k r1 with
      | error e => rw [hr] at h; simp at h
      | ok w =>
        obtain ⟨asns2, r2⟩ := w
        rw [hr] at h
        simp only [Except.ok.injEq, Prod.mk.injEq] at h
        have h1 := ih hr
        have h2 : r1.length + 2 = buf.length := by
          match buf, hb with
          | [], hb => simp [readU16] at hb
          | [b1], hb => simp [readU16] at hb
          | b1 :: b2 :: r, hb =>
            simp only [readU16, Option.some.injEq, Prod.mk.injEq] at hb
            rw [← hb.2]
            simp
        have h3 : r2 = rest := h.2
        rw [← h3]
        omega

/-- Method `decodeASPath` from `decoder.go`: segments of
`(type, count, count × uint16)` while `p < pa.Length` (`p` a `uint16`
accumulated modulo `2^16`); type must be `ASSet`/`ASSequence`, count
nonzero. -/
def decodeASPathLoop (len p : Nat) (segs : List ASPathSegment) (buf : List Nat) :
    Except GoErr (List ASPathSegment × List Nat) :=
  if p < len then
    match buf with
    | [] => .error (.str "Unable to read from buffer")
    | [_] => .error (.str "Unable to read from buffer")
    | ty :: cnt :: r2 =>
      if ty ≠ ASSet ∧ ty ≠ ASSequence then .error (.str "Invalid AS Path segment type")
      else if cnt = 0 then .error (.str "Invalid AS Path segment length")
      else
        match hM : readASNs cnt r2 with
        | .error e => .error e
        | .ok (asns, r3) =>
          decodeASPathLoop len ((p + 2 + 2 * cnt) % 65536) (segs ++ [⟨ty, cnt, asns⟩]) r3
  else .ok (segs, buf)
termination_by buf.length
decreasing_by
  have := readASNs_length_le hM
  simp only [List.length_cons]
  omega

theorem decodeASPathLoop_length_le_aux :
    ∀ (N : Nat) (buf : List Nat), buf.length ≤ N →
    ∀ (len p : Nat) (segs out : List ASPathSegment) (rest : List Nat),
    decodeASPathLoop len p segs buf = .ok (out, rest) → rest.length ≤ buf.length := by
  intro N
  induction N with
  | zero =>
    intro buf hb len p segs out rest h
    unfold decodeASPathLoop at h
    split at h
    · match buf, hb with
      | [], _ => simp at h
    · simp only [Except.ok.injEq, Prod.mk.injEq] at h
      exact h.2 ▸ Nat.le_refl _
  | succ n ih =>
    intro buf hb len p segs out rest h
    unfold decodeASPathLoop at h
    split at h
    · match buf with
      | [] => simp at h
      | [x] => simp at h
      | ty :: cnt :: r2 =>
        simp only at h
        split at h
        · simp at h
        · split at h
          · simp at h
          · cases hM : readASNs cnt r2 with
            | error e => rw [hM] at h; simp at h
            | ok v =>
              obtain ⟨asns, r3⟩ := v
              rw [hM] at h
              simp only at h
              have h3 := readASNs_length_le hM
              have h4 := ih r3 (by simp at hb; omega) _ _ _ _ _ h
              simp only [List.length_cons]
              omega
    · simp only [Except.ok.injEq, Prod.mk.injEq] at h
      exact h.2 ▸ Nat.le_refl _

theorem decodeASPathLoop_length_le {len p : Nat} {segs : List ASPathSegment}
    {buf : List Nat} {out : List ASPathSegment} {rest : List Nat}
    (h : decodeASPathLoop len p segs buf = .ok (out, rest)) : rest.length ≤ buf.length :=
  decodeASPathLoop_length_le_aux buf.length buf (Nat.le_refl _) len p segs out rest h

/-- Method `decodeNextHop` from `decoder.go`: 4 address bytes, then drain
the excess declared length. -/
def decodeNextHop (len : Nat) (buf : List Nat) : Except GoErr (AttrValue × List Nat) :=
  if buf.length < 4 then .error (.str "Unable to read next hop")
  else
    match dumpNBytes (sub16 len 4) (buf.drop 4) with
    | .error e => .error e
    | .ok r2 => .ok (.nextHop (buf.take 4), r2)

theorem decodeNextHop_length_le {len : Nat} {buf : List Nat} {v : AttrValue} {rest : List Nat}
    (h : decodeNextHop len buf = .ok (v, rest)) : rest.length ≤ buf.length := by
  simp only [decodeNextHop] at h
  split at h
  · simp at h
  · cases hd : dumpNBytes (sub16 len 4) (buf.drop 4) with
    | error e => rw [hd] at h; simp at h
    | ok r2 =>
      rw [hd] at h
      simp only [Except.ok.injEq, Prod.mk.injEq] at h
      have h1 := dumpNBytes_length_le hd
      rw [← h.2]
      simp only [List.length_drop] at h1
      omega

/-- Method `decodeUint32` from `decoder.go` (shared by `decodeMED` and
`decodeLocalPref`): a big-endian `uint32`, then drain the excess. -/
def decodeUint32attr (len : Nat) (buf : List Nat) : Except GoErr (Nat × List Nat) :=
  match readU32 buf with
  | none => .error (.str "Unable to read from buffer")
  | some (v, r1) =>
    match dumpNBytes (sub16 len 4) r1 with
    | .error _ => .error (.str "dumpNBytes failed")
    | .ok r2 => .ok (v, r2)

theorem decodeUint32attr_length_le {len : Nat} {buf : List Nat} {v : Nat} {rest : List Nat}
    (h : decodeUint32attr len buf = .ok (v, rest)) : rest.length ≤ buf.length := by
  simp only [decodeUint32attr] at h
  cases hb : readU32 buf with
  | none => rw [hb] at h; simp at h
  | some w =>
    obtain ⟨v1, r1⟩ := w
    rw [hb] at h
    simp only at h
    cases hd : dumpNBytes (sub16 len 4) r1 with
    | error e => rw [hd] at h; simp at h
    | ok r2 =>
      rw [hd] at h
      simp only [Except.ok.injEq, Prod.mk.injEq] at h
      have h1 := dumpNBytes_length_le hd
      have h2 : r1.length + 4 = buf.length := by
        match buf, hb with
        | [], hb => simp [readU32] at hb
        | [b1], hb => simp [readU32] at hb
        | [b1, b2], hb => simp [readU32] at hb
        | [b1, b2, b3], hb => simp [readU32] at hb
        | b1 :: b2 :: b3 :: b4 :: r, hb =>
          simp only [readU32, Option.some.injEq, Prod.mk.injEq] at hb
          rw [← hb.2]
          simp
      rw [← h.2]
      omega

/-- Method `decodeAggregator` from `decoder.go`: a `uint16` ASN, 4 address
bytes, then drain the excess. -/
def decodeAggregator (len : Nat) (buf : List Nat) : Except GoErr (AttrValue × List Nat) :=
  match readU16 buf with
  | none => .error (.str "Unable to read from buffer")
  | some (asn, r1) =>
    if r1.length < 4 then .error (.str "Unable to read aggregator IP")
    else
      match dumpNBytes (sub16 len 6) (r1.drop 4) with
      | .error e => .error e
      | .ok r2 => .ok (.aggregator asn (r1.take 4), r2)

theorem decodeAggregator_length_le {len : Nat} {buf : List Nat} {v : AttrValue} {rest : List Nat}
    (h : decodeAggregator len buf = .ok (v, rest)) : rest.length ≤ buf.length := by
  simp only [decodeAggregator] at h
  cases hb : readU16 buf with
  | none => rw [hb] at h; simp at h
  | some w =>
    obtain ⟨asn, r1⟩ := w
    rw [hb] at h
    simp only at h
    split at h
    · simp at h
    · cases hd : dumpNBytes (sub16 len 6) (r1.drop 4) with
      | error e => rw [hd] at h; simp at h
      | ok r2 =>
        rw [hd] at h
        simp only [Except.ok.injEq, Prod.mk.injEq] at h
        have h1 := dumpNBytes_length_le hd
        have h2 : r1.length + 2 = buf.length := by
          match buf, hb with
          | [], hb => simp [readU16] at hb
          | [b1], hb => simp [readU16] at hb
          | b1 :: b2 :: r, hb =>
            simp only [readU16, Option.some.injEq, Prod.mk.injEq] at hb
            rw [← hb.2]
            simp
        rw [← h.2]
        simp only [List.length_drop] at h1
        omega

/-- Method `setLength` from `decoder.go`: the attribute length is a
`uint16` when the extended-length flag is set, else one byte; returns the
length, the number of bytes read (`n`), and the rest. -/
def setLength (extLen : Bool) (buf : List Nat) : Option (Nat × Nat × List Nat) :=
  if extLen then
    match readU16 buf with
    | none => none
    | some (le, r3) => some (le, 2, r3)
  else
    match buf with
    | [] => none
    | x :: r3 => some (x, 1, r3)

theorem setLength_length {extLen : Bool} {buf : List Nat} {len n : Nat} {rest : List Nat}
    (h : setLength extLen buf = some (len, n, rest)) :
    rest.length + n = buf.length ∧ 1 ≤ n := by
  simp only [setLength] at h
  split at h
  · cases hb : readU16 buf with
    | none => rw [hb] at h; simp at h
    | some w =>
      obtain ⟨le, r3⟩ := w
      rw [hb] at h
      simp only [Option.some.injEq, Prod.mk.injEq] at h
      obtain ⟨h1, h2, h3⟩ := h
      match buf, hb with
      | [], hb => simp [readU16] at hb
      | [b1], hb => simp [readU16] at hb
      | b1 :: b2 :: r, hb =>
        simp only [readU16, Option.some.injEq, Prod.mk.injEq] at hb
        rw [← h3, ← hb.2, ← h2]
        simp
  · match buf with
    | [] => simp at h
    | x :: r3 =>
      simp only [Option.some.injEq, Prod.mk.injEq] at h
      obtain ⟨h1, h2, h3⟩ := h
      rw [← h3, ← h2]
      simp

/-- One iteration of `decodePathAttrs` from `decoder.go`: flag byte
(bits 7/6/5/4 = optional/transitive/partial/extended-length), type code,
`setLength`, then the per-type value decode.  The `OriginAttr` case
discards `decodeOrigin`'s error (as the source does); an unknown type code
fails.  Returns the attribute, `setLength`'s byte count `n`, and the rest
of the buffer. -/
def decodePathAttr (buf : List Nat) : Except GoErr (PathAttribute × Nat × List Nat) :=
  match buf with
  | [] => .error (.str "Unable to get path attribute flags")
  | flags :: r1 =>
    match r1 with
    | [] => .error (.str "Unable to read from buffer")
    | typeCode :: r2 =>
      match setLength (flags &&& 16 == 16) r2 with
      | none => .error (.str "Unable to read from buffer")
      | some (len, n, r3) =>
        let mk : AttrValue → PathAttribute := fun v =>
          ⟨flags &&& 128 == 128, flags &&& 64 == 64, flags &&& 32 == 32,
           flags &&& 16 == 16, typeCode, len, v⟩
        if typeCode = OriginAttr then
          .ok (mk (decodeOriginI len r3).1, n, (decodeOriginI len r3).2)
        else if typeCode = ASPathAttr then
          match decodeASPathLoop len 0 [] r3 with
          | .error _ => .error (.str "Failed to decode AS Path")
          | .ok (segs, r4) => .ok (mk (.asPath segs), n, r4)
        else if typeCode = NextHopAttr then
          match decodeNextHop len r3 with
          | .error _ => .error (.str "Failed to decode Next-Hop")
          | .ok (v, r4) => .ok (mk v, n, r4)
        else if typeCode = MEDAttr then
          match decodeUint32attr len r3 with
          | .error _ => .error (.str "Failed to decode MED")
          | .ok (v, r4) => .ok (mk (.med v), n, r4)
        else if typeCode = LocalPrefAttr then
          match decodeUint32attr len r3 with
          | .error _ => .error (.str "Failed to decode local pref")
          | .ok (v, r4) => .ok (mk (.localPref v), n, r4)
        else if typeCode = AtomicAggrAttr then
          .ok (mk .noneV, n, r3)
        else if typeCode = AggregatorAttr then
          match decodeAggregator len r3 with
          | .error _ => .error (.str "Failed to decode Aggregator")
          | .ok (v, r4) => .ok (mk v, n, r4)
        else .error (.str "Invalid Attribute Type Code")

/-- Termination helper: a successful `decodePathAttr` consumes at least
the flag and type bytes. -/
theorem decodePathAttr_rest_lt {buf : List Nat} {pa : PathAttribute} {n : Nat} {rest : List Nat}
    (h : decodePathAttr buf = .ok (pa, n, rest)) : rest.length < buf.length := by
  match buf with
  | [] => simp [decodePathAttr] at h
  | [flags] => simp [decodePathAttr] at h
  | flags :: typeCode :: r2 =>
    simp only [decodePathAttr] at h
    cases hs : setLength (flags &&& 16 == 16) r2 with
    | none => rw [hs] at h; simp at h
    | some w =>
      obtain ⟨len, n1, r3⟩ := w
      rw [hs] at h
      simp only at h
      have hsl := setLength_length hs
      have hr3 : r3.length < r2.length := by omega
      have hgoal : ∀ r4 : List Nat, r4.length ≤ r3.length →
          rest = r4 → rest.length < (flags :: typeCode :: r2).length := by
        intro r4 hle he
        rw [he]
        simp only [List.length_cons]
        omega
      split at h
      · simp only [Except.ok.injEq, Prod.mk.injEq] at h
        exact hgoal _ (decodeOriginI_length_le len r3) h.2.2.symm
      · split at h
        · cases ha : decodeASPathLoop len 0 [] r3 with
          | error e => rw [ha] at h; simp at h
          | ok w2 =>
            obtain ⟨segs, r4⟩ := w2
            rw [ha] at h
            simp only [Except.ok.injEq, Prod.mk.injEq] at h
            exact hgoal _ (decodeASPathLoop_length_le ha) h.2.2.symm
        · split at h
          · cases ha : decodeNextHop len r3 with
            | error e => rw [ha] at h; simp at h
            | ok w2 =>
              obtain ⟨v, r4⟩ := w2
              rw [ha] at h
              simp only [Except.ok.injEq, Prod.mk.injEq] at h
              exact hgoal _ (decodeNextHop_length_le ha) h.2.2.symm
          · split at h
            · cases ha : decodeUint32attr len r3 with
              | error e => rw [ha] at h; simp at h
              | ok w2 =>
                obtain ⟨v, r4⟩ := w2
                rw [ha] at h
                simp only [Except.ok.injEq, Prod.mk.injEq] at h
                exact hgoal _ (decodeUint32attr_length_le ha) h.2.2.symm
            · split at h
              · cases ha : decodeUint32attr len r3 with
                | error e => rw [ha] at h; simp at h
                | ok w2 =>
                  obtain ⟨v, r4⟩ := w2
                  rw [ha] at h
                  simp only [Except.ok.injEq, Prod.mk.injEq] at h
                  exact hgoal _ (decodeUint32attr_length_le ha) h.2.2.symm
              · split at h
                · simp only [Except.ok.injEq, Prod.mk.injEq] at h
                  exact hgoal _ (Nat.le_refl _) h.2.2.symm
                · split at h
                  · cases ha : decodeAggregator len r3 with
                    | error e => rw [ha] at h; simp at h
                    | ok w2 =>
                      obtain ⟨v, r4⟩ := w2
                      rw [ha] at h
                      simp only [Except.ok.injEq, Prod.mk.injEq] at h
                      exact hgoal _ (decodeAggregator_length_le ha) h.2.2.symm
                  · simp at h

/-- The loop of `decodePathAttrs` from `decoder.go`: attributes while the
byte counter `p` (`uint16`, accumulated modulo `2^16` as
`p++, p++, p += n, p += pa.Length`) is below the declared total `tpal`. -/
def decodePathAttrsLoop (tpal p : Nat) (acc : List PathAttribute) (buf : List Nat) :
    Except GoErr (List PathAttribute × List Nat) :=
  if p < tpal then
    match hm : decodePathAttr buf with
    | .error e => .error e
    | .ok (pa, n, rest) =>
      decodePathAttrsLoop tpal ((p + 2 + n + pa.Length) % 65536) (acc ++ [pa]) rest
  else .ok (acc, buf)
termination_by buf.length
decreasing_by exact decodePathAttr_rest_lt hm

/-- Function `decodePathAttrs` from `decoder.go`. -/
def decodePathAttrs (buf : List Nat) (tpal : Nat) : Except GoErr (List PathAttribute × List Nat) :=
  decodePathAttrsLoop tpal 0 [] buf

/-- The wrapping `uint16` subtraction computing the NLRI byte budget in
`decodeUpdateMsg`:

    nlriLen := uint16(l) - 4 - uint16(msg.TotalPathAttrLen) - uint16(msg.WithdrawnRoutesLen)
-/
def nlriLenCalc (l tpal wrl : Nat) : Nat :=
  sub16 (sub16 (sub16 l 4) tpal) wrl

/-- Function `decodeUpdateMsg` from `decoder.go` (`l` is the body length,
i.e. `hdr.Length - 19`): withdrawn-routes length and NLRIs, total path
attribute length and attributes, then — when the wrapping subtraction
`nlriLenCalc` is positive — that many bytes of NLRIs. -/
def decodeUpdateMsg (buf : List Nat) (l : Nat) : Except GoErr (BGPUpdate × List Nat) :=
  match readU16 buf with
  | none => .error (.str "Unable to read from buffer")
  | some (wrl, r1) =>
    match decodeNLRIs r1 wrl 0 with
    | .error e => .error e
    | .ok (withdrawn, r2) =>
      match readU16 r2 with
      | none => .error (.str "Unable to read from buffer")
      | some (tpal, r3) =>
        match decodePathAttrs r3 tpal with
        | .error e => .error e
        | .ok (attrs, r4) =>
          let nlriLen := nlriLenCalc l tpal wrl
          if nlriLen > 0 then
            match decodeNLRIs r4 nlriLen 0 with
            | .error e => .error e
            | .ok (nlris, r5) =>
              .ok ({ WithdrawnRoutesLen := wrl, WithdrawnRoutes := withdrawn,
                     TotalPathAttrLen := tpal, PathAttributes := attrs,
                     NLRI := nlris }, r5)
          else
            .ok ({ WithdrawnRoutesLen := wrl, WithdrawnRoutes := withdrawn,
                   TotalPathAttrLen := tpal, PathAttributes := attrs,
                   NLRI := [] }, r4)

/-- Function `decodeMsgBody` from `decoder.go`. -/
def decodeMsgBody (buf : List Nat) (msgType l : Nat) : Except GoErr (Body × List Nat) :=
  if msgType = OpenMsg then
    match _decodeOpenMsg buf with
    | .error e => .error e
    | .ok (o, rest) => .ok (.openB o, rest)
  else if msgType = UpdateMsg then
    match decodeUpdateMsg buf l with
    | .error e => .error e
    | .ok (u, rest) => .ok (.updateB u, rest)
  else if msgType = KeepaliveMsg then .ok (.keepaliveB, buf)
  else if msgType = NotificationMsg then
    match _decodeNotificationMsg buf with
    | .error e => .error e
    | .ok (n, rest) => .ok (.notificationB n, rest)
  else .error (.str "Unknown message type")

/-- Function `Decode` from `decoder.go`.  Both the header error and the
body error are re-wrapped with `fmt.Errorf`, so the returned error is a
plain error — in particular it is no longer a `packet.BGPError` value,
which is what the FSM's `switch err.(type)` tests for. -/
def Decode (buf : List Nat) : Except GoErr (BGPMessage × List Nat) :=
  match _decodeHeader buf with
  | .error _ => .error (.str "Failed to decode header")
  | .ok (hdr, r1) =>
    match decodeMsgBody r1 hdr.Typ (sub16 hdr.Length MinLen) with
    | .error _ => .error (.str "Failed to decode message")
    | .ok (body, r2) => .ok ({ Header := hdr, Body := body }, r2)


/-! ## The `server` package: per-peer FSM

Only the handlers the claims concern are modelled: the Established state's
inbound-message case and the Active state's administrative-event case.
Each handler returns the emitted side effects (as `FSMAct` values, in
order), the updated FSM record, and `some nextState` when the Go state
function returns (`none` models `continue`). -/

/-- Administrative event codes from `fsm.go`. -/
def ManualStart : Nat := 1

def ManualStop : Nat := 2

def AutomaticStart : Nat := 3

def ManualStartWithPassiveTcpEstablishment : Nat := 4

def AutomaticStartWithPassiveTcpEstablishment : Nat := 5

def AutomaticStop : Nat := 8

def ConnectRetryTimerExpires : Nat := 9

def HoldTimerExpires : Nat := 10

def KeepaliveTimerExpires : Nat := 11

/-- FSM state codes from `fsm.go` (suffixed `St`: the Go `server` package
constant `Cease` would otherwise collide with the `packet` package error
code `Cease`, which Go separates by package). -/
def CeaseSt : Nat := 0

def IdleSt : Nat := 1

def ConnectSt : Nat := 2

def ActiveSt : Nat := 3

def OpenSentSt : Nat := 4

def OpenConfirmSt : Nat := 5

def EstablishedSt : Nat := 6

/-- The FSM fields the modelled handlers read or write (`fsm.con2 != nil`
is `con2Open`). -/
structure FSMrec where
  state : Nat
  lastState : Nat
  connectRetryCounter : Nat
  holdTime : Nat
  con2Open : Bool
  adjRibIn : LPMTable
deriving DecidableEq, Repr

/-- Side effects a handler emits, in program order: writes to the primary
or collision connection, closes, timer operations. -/
inductive FSMAct where
  | sendCon (bytes : List Nat)
  | sendCon2 (bytes : List Nat)
  | closeCon
  | closeCon2
  | disconnectBoth
  | stopConnectRetryTimer
  | resetConnectRetryTimer
  | resetHoldTimer (secs : Nat)
deriving DecidableEq, Repr

/-- Method `changeState` from `fsm.go` (logging aside): records the last
state and the new state. -/
def FSMrec.changeState (fsm : FSMrec) (new : Nat) : FSMrec :=
  { fsm with lastState := fsm.state, state := new }

/-- Modelled from the spec: `SerializeNotificationMsg` is called by
`sendNotification` but is not among the repository's files.  Per the spec
(§4.3, Encode entry points), a NOTIFICATION serializes as the 19-byte
header (16 marker bytes of 0xFF, big-endian length 21, type 3) followed
by the error code and the error subcode. -/
def SerializeNotificationMsg (n : BGPNotification) : List Nat :=
  List.replicate 16 255 ++ [0, 21, NotificationMsg, n.ErrorCode, n.ErrorSubcode]

/-- Function `sendNotification` from `fsm.go`, which serializes an empty
`BGPNotification{}` — the `errorCode` and `errorSubCode` parameters are
ignored:

    func sendNotification(c *net.TCPConn, errorCode uint8, errorSubCode uint8) error {
        ...
        msg := packet.SerializeNotificationMsg(&packet.BGPNotification{})
        _, err := c.Write(msg)
        ...
    }

The result is the byte string written to the connection. -/
def sendNotification (errorCode errorSubCode : Nat) : List Nat :=
  SerializeNotificationMsg { ErrorCode := 0, ErrorSubcode := 0 }

/-- Big-endian bytes-to-`uint32` (`convert.Uint32b` of the tflow2 library,
used by the Established UPDATE handler on the 4-byte NLRI address). -/
def Uint32b (data : List Nat) : Nat :=
  data.foldl (fun acc b => (acc * 256 + b) % 2 ^ 32) 0

/-- The `msgRecvCh` case of `FSM.established` from `fsm.go`: decode the
message; on failure send a NOTIFICATION carrying the BGP error's code and
subcode when the error is a `packet.BGPError` (it never is: `Decode`
re-wraps, see `Decode`), stop the connect-retry timer, close the
connection, increment the connect-retry counter and go to Idle.  On
success dispatch on the message type: NOTIFICATION tears down to Idle;
UPDATE removes each withdrawn prefix from and inserts each NLRI prefix
into the Adj-RIB-In and resets the hold timer when the negotiated
hold-time is nonzero; KEEPALIVE resets the hold timer; OPEN resolves a
collision when a second connection exists, else is an FSM error; anything
else is an FSM error. -/
def establishedMsgRecv (fsm : FSMrec) (bytes : List Nat) :
    List FSMAct × FSMrec × Option Nat :=
  match Decode bytes with
  | .error e =>
    let notifActs : List FSMAct :=
      match e with
      | .bgp c s _ => [.sendCon (sendNotification c s)]
      | .str _ => []
    (notifActs ++ [.stopConnectRetryTimer, .closeCon],
     ({ fsm with connectRetryCounter := fsm.connectRetryCounter + 1 }).changeState IdleSt,
     some IdleSt)
  | .ok (msg, _) =>
    if msg.Header.Typ = NotificationMsg then
      ([.stopConnectRetryTimer, .closeCon],
       ({ fsm with connectRetryCounter := fsm.connectRetryCounter + 1 }).changeState IdleSt,
       some IdleSt)
    else if msg.Header.Typ = UpdateMsg then
      match msg.Body with
      | .updateB u =>
        let acts := if fsm.holdTime ≠ 0 then [FSMAct.resetHoldTimer fsm.holdTime] else []
        let rib1 := u.WithdrawnRoutes.foldl
          (fun t r => t.Remove (NewPfx (Uint32b r.IP) r.Pfxlen)) fsm.adjRibIn
        let rib2 := u.NLRI.foldl
          (fun t r => t.Insert (NewPfx (Uint32b r.IP) r.Pfxlen)) rib1
        (acts, { fsm with adjRibIn := rib2 }, none)
      | _ => ([], fsm, none)
    else if msg.Header.Typ = KeepaliveMsg then
      ((if fsm.holdTime ≠ 0 then [FSMAct.resetHoldTimer fsm.holdTime] else []), fsm, none)
    else if msg.Header.Typ = OpenMsg then
      if fsm.con2Open then
        ([.sendCon2 (sendNotification Cease ConnectionCollisionResolution), .closeCon2],
         { fsm with con2Open := false }, none)
      else
        ([.sendCon (sendNotification FiniteStateMachineError 0), .stopConnectRetryTimer, .closeCon],
         ({ fsm with connectRetryCounter := fsm.connectRetryCounter + 1 }).changeState IdleSt,
         some IdleSt)
    else
      ([.sendCon (sendNotification FiniteStateMachineError 0), .stopConnectRetryTimer, .closeCon],
       ({ fsm with connectRetryCounter := fsm.connectRetryCounter + 1 }).changeState IdleSt,
       some IdleSt)

/-- The `eventCh` case of `FSM.active` from `fsm.go`:

    case e := <-fsm.eventCh:
        if e == ManualStop {
            fsm.disconnect()
            fsm.connectRetryCounter = 0
            stopTimer(fsm.connectRetryTimer)
            return fsm.changeState(Active, "Manual stop event")
        }
        continue

Note the transition target is `Active`, not `Idle`. -/
def activeEvent (fsm : FSMrec) (e : Nat) : List FSMAct × FSMrec × Option Nat :=
  if e = ManualStop then
    ([.disconnectBoth, .stopConnectRetryTimer],
     ({ fsm with connectRetryCounter := 0, con2Open := false }).changeState ActiveSt,
     some ActiveSt)
  else ([], fsm, none)

end TBGP

namespace TBGP

example : Pfx.Contains ⟨0x0A000000, 8⟩ ⟨0x0A000000, 9⟩ = true := by decide
example : Pfx.Contains ⟨0x0A000000, 8⟩ ⟨0x0B647B00, 24⟩ = false := by decide
example : Pfx.GetSupernet ⟨0x0B647B00, 24⟩ ⟨0x0A000000, 8⟩ = ⟨0x0A000000, 7⟩ := by
  simp [Pfx.GetSupernet, sub8, snLoop, shl32]

/-- Claim C1: the claim states that `Contains(self, x)` is true iff
`x.pfxlen > self.pfxlen` and the top `self.pfxlen` bits of the two
addresses agree.  The code compares the two addresses under the
single-bit mask `1 << (32 - self.pfxlen)` instead of a mask of the top
`self.pfxlen` bits, contradicting both this statement and the function's
own doc comment ("Contains checks if x is a subnet of or equal to pfx").
At `self = 0.0.0.0/8`, `x = 128.0.0.0/9` the code returns `true` although
the top 8 bits of the two addresses differ, so `x` is not a subnet of
`self`. -/
theorem Contains_single_bit_mask_bug :
    Pfx.Contains ⟨0, 8⟩ ⟨0x80000000, 9⟩ = true ∧
    ¬ specContains ⟨0, 8⟩ ⟨0x80000000, 9⟩ := by
  constructor
  · decide
  · decide


/-- Cross-check with the Go test `TestInsert`, case "Insert disjunct
prefixes": inserting 10.0.0.0/8 then 11.100.123.0/24 builds the dummy
10.0.0.0/7 root with the two prefixes as children. -/
example : ((LPMTable.New.Insert ⟨0x0A000000, 8⟩).Insert ⟨0x0B647B00, 24⟩) =
    ⟨.node 7 true ⟨0x0A000000, 7⟩
      (.node 0 false ⟨0x0A000000, 8⟩ .nil .nil)
      (.node 16 false ⟨0x0B647B00, 24⟩ .nil .nil), 0⟩ := by
  simp +decide [LPMTable.Insert, LPMTable.New, NodeP.insert, newNode,
    NodeP.newSuperNode, NodeP.insertChildren, NodeP.insertBefore,
    Pfx.GetSupernet, snLoop, Pfx.Contains, containsMask, getBitUint32,
    sub8, shl32]


/-- Claim C8: the claim states that in the Active state a ManualStop event
makes the FSM transition to Idle after disconnecting, zeroing the
connect-retry counter and stopping the connect-retry timer.  The code does
disconnect, zero the counter and stop the timer, but then calls
`changeState(Active, "Manual stop event")`: the FSM stays in Active
instead of going to Idle (the spec itself flags this as a source bug and
mandates Idle, matching RFC 4271). -/
theorem active_manualStop_stays_active :
    activeEvent ⟨ActiveSt, IdleSt, 3, 90, false, LPMTable.New⟩ ManualStop =
      ([.disconnectBoth, .stopConnectRetryTimer],
       ⟨ActiveSt, ActiveSt, 0, 90, false, LPMTable.New⟩,
       some ActiveSt) ∧
    ActiveSt ≠ IdleSt := by
  constructor
  · decide
  · decide

/-- Claim C2: the claim states that in Established a decode failure
carrying a BGP `(error_code, error_subcode)` makes the FSM send a
NOTIFICATION with that code and subcode, close the connection, increment
the connect-retry counter and go to Idle.  On the wire input below (a BGP
message whose 16th marker byte is 254), `_decodeHeader` fails with the
BGP error `MessageHeaderError/ConnectionNotSync`; the FSM does close the
connection, increment the counter and go to Idle — but no NOTIFICATION is
sent at all: `Decode` re-wraps the `BGPError` with `fmt.Errorf`, so the
handler's `switch err.(type)` never matches `packet.BGPError` (first
conjunct vs second).  And had `sendNotification` been reached, it
serializes an empty `BGPNotification{}`, not the error's code and subcode
(third conjunct). -/
theorem established_decode_failure_no_notification :
    _decodeHeader (List.replicate 15 255 ++ [254, 0, 19, 4]) =
      .error (.bgp MessageHeaderError ConnectionNotSync "Invalid marker") ∧
    establishedMsgRecv ⟨EstablishedSt, OpenConfirmSt, 0, 90, false, LPMTable.New⟩
        (List.replicate 15 255 ++ [254, 0, 19, 4]) =
      ([.stopConnectRetryTimer, .closeCon],
       ⟨IdleSt, EstablishedSt, 1, 90, false, LPMTable.New⟩,
       some IdleSt) ∧
    sendNotification MessageHeaderError ConnectionNotSync ≠
      SerializeNotificationMsg ⟨MessageHeaderError, ConnectionNotSync⟩ := by
  refine ⟨by decide, ?_, by decide⟩
  simp +decide [establishedMsgRecv, Decode, FSMrec.changeState]

/-- Claim C5: the claim states that for every insert sequence and every
inserted real prefix `p`, `LPM(p)` is non-empty and ends in `p`.  Insert
10.0.0.0/8 and 11.100.123.0/24 (creating the dummy node 10.0.0.0/7), then
insert 10.0.0.0/7 as a real prefix: `node.insert` matches the equal dummy
node and returns it unchanged (the dedup branch `*n.pfx == *pfx` does not
clear the dummy flag), so the insert is silently lost and `LPM(10.0.0.0/7)`
returns the empty list. -/
theorem lpm_insert_lost_on_dummy :
    (((LPMTable.New.Insert ⟨0x0A000000, 8⟩).Insert ⟨0x0B647B00, 24⟩).Insert
        ⟨0x0A000000, 7⟩).LPM ⟨0x0A000000, 7⟩ = [] := by
  simp +decide [LPMTable.Insert, LPMTable.New, LPMTable.LPM, NodeP.insert,
    NodeP.lpm, newNode, NodeP.newSuperNode, NodeP.insertChildren,
    NodeP.insertBefore, Pfx.GetSupernet, snLoop, Pfx.Contains, containsMask,
    getBitUint32, sub8, shl32]

/-- Claim C3: the claim states that `Get(p, more_specifics=true)` returns
`p` (when present and non-dummy) plus exactly the real stored prefixes `q`
with `p.contains(q)`.  Insert 10.0.0.0/8 and 11.100.123.0/24: the trie
root is the dummy 10.0.0.0/7, both stored prefixes are real (the second
conjunct shows 10.0.0.0/8 is present and non-dummy) and both lie under
10.0.0.0/7 (last two conjuncts, under the specification's containment);
yet `Get(10.0.0.0/7, more_specifics=true)` returns the empty list, because
`node.get` returns nil for the matching dummy node and `Get` then dumps
the nil node. -/
theorem get_moreSpecifics_empty_on_dummy :
    ((LPMTable.New.Insert ⟨0x0A000000, 8⟩).Insert ⟨0x0B647B00, 24⟩).Get
        ⟨0x0A000000, 7⟩ true = [] ∧
    ((LPMTable.New.Insert ⟨0x0A000000, 8⟩).Insert ⟨0x0B647B00, 24⟩).Get
        ⟨0x0A000000, 8⟩ false = [⟨0x0A000000, 8⟩] ∧
    specContains ⟨0x0A000000, 7⟩ ⟨0x0A000000, 8⟩ ∧
    specContains ⟨0x0A000000, 7⟩ ⟨0x0B647B00, 24⟩ := by
  have htree : ((LPMTable.New.Insert ⟨0x0A000000, 8⟩).Insert ⟨0x0B647B00, 24⟩) =
      ⟨.node 7 true ⟨0x0A000000, 7⟩
        (.node 0 false ⟨0x0A000000, 8⟩ .nil .nil)
        (.node 16 false ⟨0x0B647B00, 24⟩ .nil .nil), 0⟩ := by
    simp +decide [LPMTable.Insert, LPMTable.New, NodeP.insert, newNode,
      NodeP.newSuperNode, NodeP.insertChildren, NodeP.insertBefore,
      Pfx.GetSupernet, snLoop, Pfx.Contains, containsMask, getBitUint32,
      sub8, shl32]
  rw [htree]
  refine ⟨by decide, by decide, by decide, by decide⟩

/-- Claim C10: for an UPDATE whose declared lengths are inconsistent with
the message length, the `uint16` subtraction computing the NLRI budget
wraps.  Concretely: body `[0, 0, 0, 0]` (withdrawn-routes-len 0, total
path-attribute-len 0) with body length `l = 2` (total message length 21):
`4 + 0 + 0 > 2`, the wrapped budget is `2 - 4 ≡ 65534 (mod 2^16)`, and
`decodeUpdateMsg` goes on to attempt NLRI parsing with that budget (the
returned error is the NLRI decoder's, not a length-consistency
rejection). -/
theorem updateMsg_nlri_budget_wraps :
    (4 + 0 + 0 > 2) ∧
    nlriLenCalc 2 0 0 = 65534 ∧
    decodeUpdateMsg [0, 0, 0, 0] 2 = .error (.str "Unable to decode NLRI") := by
  refine ⟨by decide, by decide, ?_⟩
  simp +decide [decodeUpdateMsg, decodeNLRIs, decodeNLRI, decodePathAttrs,
    decodePathAttrsLoop, readU16, nlriLenCalc, sub16]

/-- Claim C6 counterexample: the claim states the number of NLRI bytes
parsed after the path attributes equals
`total-message-length - 19 - 4 - total-path-attr-len - withdrawn-routes-len`.
For the UPDATE body `[0, 0, 0, 0, 8, 10]` with body length `l = 5`
(total message length 24) the formula gives `24 - 19 - 4 - 0 - 0 = 1`,
but the NLRI parser consumes whole NLRIs until the budget is reached:
it decodes `8, 10` (an /8 prefix, 2 bytes) and consumes 2 bytes — the
NLRI stage starts on the 2-byte buffer `[8, 10]` and ends with an empty
rest (third conjunct), so 2 ≠ 1 bytes were parsed. -/
theorem update_nlri_parse_overshoots :
    decodeUpdateMsg [0, 0, 0, 0, 8, 10] 5 =
      .ok ({ WithdrawnRoutesLen := 0, WithdrawnRoutes := [],
             TotalPathAttrLen := 0, PathAttributes := [],
             NLRI := [⟨8, [10, 0, 0, 0]⟩] }, []) ∧
    nlriLenCalc 5 0 0 = 1 ∧
    decodeNLRIs [8, 10] 1 0 = .ok ([⟨8, [10, 0, 0, 0]⟩], []) ∧
    (2 : Nat) ≠ 1 := by
  refine ⟨?_, by decide, ?_, by decide⟩
  · simp +decide [decodeUpdateMsg, decodeNLRIs, decodeNLRI, decodePathAttrs,
      decodePathAttrsLoop, readU16, nlriLenCalc, sub16]
  · simp +decide [decodeNLRIs, decodeNLRI]

/-- Claim C7 counterexample: the claim quantifies over every two
non-identical prefixes.  For `a = 0.0.0.0/0` and `b = 0.0.0.0/1`
(non-identical, `min(a.len, b.len) = 0`), the `uint8` computation
`maxPfxLen := min(...) - 1` wraps to 255, and `GetSupernet` returns the
nonsense prefix `(0, 255)`, which contains neither input — under the
specification's containment (third conjunct) nor under the code's own
`Contains` (fourth conjunct) — so it is not the longest prefix containing
both. -/
theorem getSupernet_min_len0_underflow :
    Pfx.GetSupernet ⟨0, 0⟩ ⟨0, 1⟩ = ⟨0, 255⟩ ∧
    (⟨0, 0⟩ : Pfx) ≠ ⟨0, 1⟩ ∧
    ¬ specContains (⟨0, 255⟩ : Pfx) ⟨0, 0⟩ ∧
    Pfx.Contains ⟨0, 255⟩ ⟨0, 0⟩ = false := by
  refine ⟨?_, by decide, by decide, by decide⟩
  simp +decide [Pfx.GetSupernet, snLoop, sub8, shl32]


/-- Claim C4: decoding a BGP header (buffer of the 16 marker bytes, the
big-endian length `l1*256 + l2`, the type byte `t`, and the remainder)
checks, in order: every marker byte equals 0xFF (else
`MessageHeaderError/ConnectionNotSync`), the length lies in `19..=4096`
(else `MessageHeaderError/BadMessageLength`), the type lies in `1..=4`
(else `MessageHeaderError/BadMessageType`); when all checks pass the
header's length and type are returned. -/
theorem decodeHeader_rules (marker : List Nat) (l1 l2 t : Nat) (rest : List Nat)
    (hm : marker.length = 16) :
    ((∃ b ∈ marker, b ≠ 255) →
      _decodeHeader (marker ++ l1 :: l2 :: t :: rest) =
        .error (.bgp MessageHeaderError ConnectionNotSync "Invalid marker")) ∧
    ((∀ b ∈ marker, b = 255) → (l1 * 256 + l2 < 19 ∨ l1 * 256 + l2 > 4096) →
      _decodeHeader (marker ++ l1 :: l2 :: t :: rest) =
        .error (.bgp MessageHeaderError BadMessageLength "Invalid length in BGP header")) ∧
    ((∀ b ∈ marker, b = 255) → 19 ≤ l1 * 256 + l2 → l1 * 256 + l2 ≤ 4096 →
      (t = 0 ∨ t > 4) →
      _decodeHeader (marker ++ l1 :: l2 :: t :: rest) =
        .error (.bgp MessageHeaderError BadMessageType "Invalid message type")) ∧
    ((∀ b ∈ marker, b = 255) → 19 ≤ l1 * 256 + l2 → l1 * 256 + l2 ≤ 4096 →
      1 ≤ t → t ≤ 4 →
      _decodeHeader (marker ++ l1 :: l2 :: t :: rest) =
        .ok (⟨l1 * 256 + l2, t⟩, rest)) := by
  have hnotshort : ¬((marker ++ l1 :: l2 :: t :: rest).length < MarkerLen) := by
    simp only [List.length_append, List.length_cons, hm, MarkerLen]
    omega
  have htake : (marker ++ l1 :: l2 :: t :: rest).take MarkerLen = marker :=
    List.take_left' hm
  have hdrop : (marker ++ l1 :: l2 :: t :: rest).drop MarkerLen = l1 :: l2 :: t :: rest :=
    List.drop_left' hm
  have hred : _decodeHeader (marker ++ l1 :: l2 :: t :: rest) =
      (if marker.any (fun b => b ≠ 255) then
        .error (.bgp MessageHeaderError ConnectionNotSync "Invalid marker")
      else if l1 * 256 + l2 < MinLen ∨ l1 * 256 + l2 > MaxLen then
        .error (.bgp MessageHeaderError BadMessageLength "Invalid length in BGP header")
      else if t > KeepaliveMsg ∨ t = 0 then
        .error (.bgp MessageHeaderError BadMessageType "Invalid message type")
      else .ok (⟨l1 * 256 + l2, t⟩, rest)) := by
    rw [_decodeHeader, if_neg hnotshort, htake, hdrop]
    simp only [readU16, readU8]
  refine ⟨?_, ?_, ?_, ?_⟩
  · intro hbad
    rw [hred, if_pos]
    rw [List.any_eq_true]
    obtain ⟨b, hb, hbne⟩ := hbad
    exact ⟨b, hb, by simpa using hbne⟩
  · intro hok hlen
    have hany : ¬(marker.any (fun b => b ≠ 255) = true) := by
      rw [List.any_eq_true]
      rintro ⟨b, hb, hbne⟩
      exact (by simpa using hbne : b ≠ 255) (hok b hb)
    rw [hred, if_neg hany, if_pos]
    simp only [MinLen, MaxLen]
    omega
  · intro hok hl1 hl2 ht
    have hany : ¬(marker.any (fun b => b ≠ 255) = true) := by
      rw [List.any_eq_true]
      rintro ⟨b, hb, hbne⟩
      exact (by simpa using hbne : b ≠ 255) (hok b hb)
    rw [hred, if_neg hany, if_neg (by simp only [MinLen, MaxLen]; omega), if_pos]
    simp only [KeepaliveMsg]
    omega
  · intro hok hl1 hl2 ht1 ht2
    have hany : ¬(marker.any (fun b => b ≠ 255) = true) := by
      rw [List.any_eq_true]
      rintro ⟨b, hb, hbne⟩
      exact (by simpa using hbne : b ≠ 255) (hok b hb)
    rw [hred, if_neg hany, if_neg (by simp only [MinLen, MaxLen]; omega),
      if_neg (by simp only [KeepaliveMsg]; omega)]

/-- Witness for `decodeHeader_rules`: the all-0xFF marker with length 19
and type 4 (a KEEPALIVE header) decodes to `(length 19, type 4)`, and a
marker with one byte 254 is rejected as `ConnectionNotSync` (specification
scenario S4). -/
theorem decodeHeader_rules_witness :
    _decodeHeader (List.replicate 16 255 ++ [0, 19, 4]) =
      .ok (⟨19, 4⟩, []) ∧
    _decodeHeader (List.replicate 15 255 ++ [254] ++ [0, 19, 4]) =
      .error (.bgp MessageHeaderError ConnectionNotSync "Invalid marker") := by
  constructor
  · exact (decodeHeader_rules (List.replicate 16 255) 0 19 4 [] (by decide)).2.2.2
      (by decide) (by decide) (by decide) (by decide) (by decide)
  · exact (decodeHeader_rules (List.replicate 15 255 ++ [254]) 0 19 4 [] (by decide)).1
      (by decide)

/-- Claim C9: decoding a NOTIFICATION body `[c, s, ...]` succeeds exactly
when the `(error_code, error_subcode)` pair is in the validity table:
code 1 permits subcodes `1..=3`; code 2 permits `1..=6` except 5; code 3
permits `1..=11` except 7; codes 4, 5, 6 permit only subcode 0; every
other pair — including code 0 and codes above 6 — fails decoding. -/
theorem notification_subcode_validity (c s : Nat) (rest : List Nat) :
    (((c = MessageHeaderError ∧ 1 ≤ s ∧ s ≤ 3) ∨
      (c = OpenMessageError ∧ 1 ≤ s ∧ s ≤ 6 ∧ s ≠ 5) ∨
      (c = UpdateMessageError ∧ 1 ≤ s ∧ s ≤ 11 ∧ s ≠ 7) ∨
      ((c = HoldTimeExpired ∨ c = FiniteStateMachineError ∨ c = Cease) ∧ s = 0)) →
      _decodeNotificationMsg (c :: s :: rest) = .ok (⟨c, s⟩, rest)) ∧
    (¬((c = MessageHeaderError ∧ 1 ≤ s ∧ s ≤ 3) ∨
      (c = OpenMessageError ∧ 1 ≤ s ∧ s ≤ 6 ∧ s ≠ 5) ∨
      (c = UpdateMessageError ∧ 1 ≤ s ∧ s ≤ 11 ∧ s ≠ 7) ∨
      ((c = HoldTimeExpired ∨ c = FiniteStateMachineError ∨ c = Cease) ∧ s = 0)) →
      (∃ m, _decodeNotificationMsg (c :: s :: rest) = .error (.str m))) := by
  simp only [_decodeNotificationMsg, readU8, MessageHeaderError, OpenMessageError,
    UpdateMessageError, HoldTimeExpired, FiniteStateMachineError, Cease,
    BadMessageType, UnacceptableHoldTime, DeprecatedOpenMsgError5,
    MalformedASPath, DeprecatedUpdateMsgError7]
  constructor
  · intro htable
    split_ifs <;> first | rfl | omega
  · intro hn
    split_ifs <;> first | exact ⟨_, rfl⟩ | (exfalso; revert hn; simp only [not_or]; omega)


/-- Unpacking a successful `decodeNLRI`: the buffer starts with the prefix
length, `min(ceil(pfxlen/8), 4)` address bytes are taken off the wire and
zero-extended to 4 bytes, and `ceil(pfxlen/8) + 1` bytes are reported
consumed. -/
theorem decodeNLRI_ok_facts {buf : List Nat} {n : NLRI} {c : Nat} {rest : List Nat}
    (h : decodeNLRI buf = .ok (n, c, rest)) :
    ∃ r1, buf = n.Pfxlen :: r1 ∧
      c = (n.Pfxlen + 7) / 8 + 1 ∧
      min ((n.Pfxlen + 7) / 8) 4 ≤ r1.length ∧
      n.IP = r1.take (min ((n.Pfxlen + 7) / 8) 4) ++
        List.replicate (4 - min ((n.Pfxlen + 7) / 8) 4) 0 ∧
      rest = r1.drop (min ((n.Pfxlen + 7) / 8) 4) := by
  match buf with
  | [] => simp [decodeNLRI] at h
  | pfxlen :: r1 =>
    simp only [decodeNLRI] at h
    split at h
    · simp at h
    · rename_i hguard
      simp only [Except.ok.injEq, Prod.mk.injEq] at h
      obtain ⟨hn, hc, hrest⟩ := h
      have hpl : n.Pfxlen = pfxlen := by rw [← hn]
      have hip : n.IP = r1.take (min ((pfxlen + 7) / 8) 4) ++
          List.replicate (4 - min ((pfxlen + 7) / 8) 4) 0 := by rw [← hn]
      rw [hpl]
      exact ⟨r1, rfl, by omega, by omega, hip, hrest.symm⟩

/-- A successful `decodeNLRI` of a well-formed prefix length (`≤ 32`)
consumes exactly the `1 + ceil(pfxlen/8)` bytes it reports. -/
theorem decodeNLRI_consumed {buf : List Nat} {n : NLRI} {c : Nat} {rest : List Nat}
    (h : decodeNLRI buf = .ok (n, c, rest)) (hp : n.Pfxlen ≤ 32) :
    c = 1 + (n.Pfxlen + 7) / 8 ∧ rest.length + c = buf.length ∧ 1 ≤ c := by
  obtain ⟨r1, hbuf, hc, hr1, hip, hrest⟩ := decodeNLRI_ok_facts h
  have hmin : min ((n.Pfxlen + 7) / 8) 4 = (n.Pfxlen + 7) / 8 := by omega
  rw [hmin] at hr1 hrest
  refine ⟨by omega, ?_, by omega⟩
  rw [hrest, hbuf]
  simp only [List.length_drop, List.length_cons]
  omega

/-- Bytes consumed by `decodeNLRIs` with budget `L` starting at counter
`p`: whole NLRIs are consumed until `p ≥ L`, so (when every decoded
prefix length is `≤ 32` and the counter cannot wrap) the bytes consumed
are `Σ (1 + ceil(pfxlen/8))` over the decoded NLRIs, and that sum covers
the budget. -/
theorem decodeNLRIs_consumed_aux :
    ∀ (N : Nat) (buf : List Nat), buf.length ≤ N →
    ∀ (L p : Nat) (ns : List NLRI) (rest : List Nat),
    p + buf.length < 65536 →
    decodeNLRIs buf L p = .ok (ns, rest) →
    (∀ n ∈ ns, n.Pfxlen ≤ 32) →
    rest.length + (ns.map (fun n => 1 + (n.Pfxlen + 7) / 8)).sum = buf.length ∧
    (p < L → L ≤ p + (ns.map (fun n => 1 + (n.Pfxlen + 7) / 8)).sum) := by
  intro N
  induction N with
  | zero =>
    intro buf hb L p ns rest hpb h hns
    match buf, hb with
    | [], _ =>
      unfold decodeNLRIs at h
      split at h
      · simp [decodeNLRI] at h
      · rename_i hpL
        simp only [Except.ok.injEq, Prod.mk.injEq] at h
        obtain ⟨h1, h2⟩ := h
        rw [← h1, ← h2]
        exact ⟨by simp, fun hc => absurd hc hpL⟩
  | succ k ih =>
    intro buf hb L p ns rest hpb h hns
    unfold decodeNLRIs at h
    split at h
    · rename_i hpL
      cases hm : decodeNLRI buf with
      | error e => rw [hm] at h; simp at h
      | ok w =>
        obtain ⟨nlri, c, rest1⟩ := w
        rw [hm] at h
        simp only at h
        cases hrec : decodeNLRIs rest1 L ((p + c) % 65536) with
        | error e => rw [hrec] at h; simp at h
        | ok w2 =>
          obtain ⟨ns2, rest2⟩ := w2
          rw [hrec] at h
          simp only [Except.ok.injEq, Prod.mk.injEq] at h
          obtain ⟨hns2, hrest2⟩ := h
          have hmem : nlri.Pfxlen ≤ 32 :=
            hns nlri (by rw [← hns2]; exact List.mem_cons_self _ _)
          obtain ⟨hc, hlen1, hc1⟩ := decodeNLRI_consumed hm hmem
          have hrl : rest1.length < buf.length := decodeNLRI_rest_length hm
          have hmod : (p + c) % 65536 = p + c := Nat.mod_eq_of_lt (by omega)
          rw [hmod] at hrec
          have hih := ih rest1 (by omega) L (p + c) ns2 rest2 (by omega) hrec
            (fun n hn => hns n (by rw [← hns2]; exact List.mem_cons_of_mem _ hn))
          obtain ⟨hsum2, hbound2⟩ := hih
          constructor
          · rw [← hns2, ← hrest2]
            simp only [List.map_cons, List.sum_cons]
            omega
          · intro _
            rw [← hns2]
            simp only [List.map_cons, List.sum_cons]
            by_cases hplc : p + c < L
            · have := hbound2 hplc
              omega
            · omega
    · rename_i hpL
      simp only [Except.ok.injEq, Prod.mk.injEq] at h
      obtain ⟨h1, h2⟩ := h
      rw [← h1, ← h2]
      exact ⟨by simp, fun hc => absurd hc hpL⟩

/-- Claim C6 (amended): (1) the NLRI byte budget computed by
`decodeUpdateMsg` equals
`body-length - 4 - total-path-attr-len - withdrawn-routes-len`
(that is, `total-message-length - 19 - 4 - ...`, since the body length is
`total - 19`) whenever the declared lengths are consistent
(`4 + tpal + wrl ≤ l`; otherwise the `uint16` subtraction wraps, claim
C10); (2) the NLRI parser consumes whole NLRIs — `1 + ceil(pfxlen/8)`
bytes each for well-formed prefix lengths — until it reaches the budget,
so the bytes parsed are `Σ (1 + ceil(pfxlen/8))`, at least the budget,
and equal to it exactly when the NLRI encodings tile the budget; (3) each
decoded NLRI with `pfxlen ≤ 32` reads `ceil(pfxlen/8)` address octets
from the wire and zero-fills the remaining trailing bytes of its 4-byte
address. -/
theorem update_nlri_budget_and_bytes :
    (∀ l tpal wrl : Nat, tpal < 65536 → wrl < 65536 → l < 65536 →
      4 + tpal + wrl ≤ l → nlriLenCalc l tpal wrl = l - 4 - tpal - wrl) ∧
    (∀ (buf : List Nat) (L : Nat) (ns : List NLRI) (rest : List Nat),
      buf.length < 65536 →
      decodeNLRIs buf L 0 = .ok (ns, rest) →
      (∀ n ∈ ns, n.Pfxlen ≤ 32) →
      rest.length + (ns.map (fun n => 1 + (n.Pfxlen + 7) / 8)).sum = buf.length ∧
      (0 < L → L ≤ (ns.map (fun n => 1 + (n.Pfxlen + 7) / 8)).sum)) ∧
    (∀ (pfxlen : Nat) (r1 : List Nat) (n : NLRI) (c : Nat) (rest : List Nat),
      decodeNLRI (pfxlen :: r1) = .ok (n, c, rest) → pfxlen ≤ 32 →
      n.Pfxlen = pfxlen ∧ c = 1 + (pfxlen + 7) / 8 ∧
      n.IP = r1.take ((pfxlen + 7) / 8) ++ List.replicate (4 - (pfxlen + 7) / 8) 0 ∧
      rest = r1.drop ((pfxlen + 7) / 8)) := by
  refine ⟨?_, ?_, ?_⟩
  · intro l tpal wrl h1 h2 h3 h4
    simp only [nlriLenCalc, sub16]
    omega
  · intro buf L ns rest hlen h hns
    have := decodeNLRIs_consumed_aux buf.length buf (Nat.le_refl _) L 0 ns rest
      (by omega) h hns
    refine ⟨this.1, fun hL => ?_⟩
    have h2 := this.2 hL
    omega
  · intro pfxlen r1 n c rest h hp
    obtain ⟨r2, hbuf, hc, hr1, hip, hrest⟩ := decodeNLRI_ok_facts h
    obtain ⟨hpl, hr2⟩ : n.Pfxlen = pfxlen ∧ r2 = r1 := by
      simp only [List.cons.injEq] at hbuf
      exact ⟨hbuf.1.symm, hbuf.2.symm⟩
    subst hr2
    rw [hpl] at hc hr1 hip hrest
    have hmin : min ((pfxlen + 7) / 8) 4 = (pfxlen + 7) / 8 := by omega
    rw [hmin] at hip hrest
    exact ⟨hpl, by omega, hip, hrest⟩


/-- Characterization of the `GetSupernet` loop: started at length `L ≤ 31`
with the two addresses shifted right by `32 - L`, it stops at the largest
`K ≤ L` at which the two addresses agree on their top `K` bits, returning
the shifted first address and `K`. -/
theorem snLoop_spec (A B : Nat) (hA : A < 2 ^ 32) (hB : B < 2 ^ 32) :
    ∀ L, L ≤ 31 →
    ∃ K, K ≤ L ∧
      snLoop (A >>> (32 - L)) (B >>> (32 - L)) L = (A >>> (32 - K), K) ∧
      A >>> (32 - K) = B >>> (32 - K) ∧
      ∀ n, K < n → n ≤ L → A >>> (32 - n) ≠ B >>> (32 - n) := by
  intro L
  induction L with
  | zero =>
    intro _
    have h0a : A >>> 32 = 0 := by
      rw [Nat.shiftRight_eq_div_pow]
      exact Nat.div_eq_of_lt hA
    have h0b : B >>> 32 = 0 := by
      rw [Nat.shiftRight_eq_div_pow]
      exact Nat.div_eq_of_lt hB
    refine ⟨0, Nat.le_refl _, ?_, by rw [h0a, h0b], by omega⟩
    rw [snLoop.eq_def, if_pos (by rw [h0a, h0b] : A >>> (32 - 0) = B >>> (32 - 0))]
  | succ l ihl =>
    intro hl
    by_cases heq : A >>> (32 - (l + 1)) = B >>> (32 - (l + 1))
    · refine ⟨l + 1, Nat.le_refl _, ?_, heq, by omega⟩
      rw [snLoop.eq_def, if_pos heq]
    · have hstep : (255 + (l + 1)) % 256 = l := by omega
      have hexp : (32 - (l + 1)) + 1 = 32 - l := by omega
      have ha1 : (A >>> (32 - (l + 1))) >>> 1 = A >>> (32 - l) := by
        rw [← Nat.shiftRight_add, hexp]
      have hb1 : (B >>> (32 - (l + 1))) >>> 1 = B >>> (32 - l) := by
        rw [← Nat.shiftRight_add, hexp]
      obtain ⟨K, hK, hloop, heqK, hne⟩ := ihl (by omega)
      refine ⟨K, by omega, ?_, heqK, ?_⟩
      · rw [snLoop.eq_def, if_neg heq, hstep, ha1, hb1]
        exact hloop
      · intro n hn1 hn2
        by_cases hcase : n = l + 1
        · rw [hcase]; exact heq
        · exact hne n hn1 (by omega)

/-- Claim C7 (amended): for two well-formed prefixes (addresses below
`2^32`, lengths in `[0, 32]`) that are non-identical and both of length
at least 1, `GetSupernet(a, b)` returns the longest prefix `r` with
`r.contains(a)` and `r.contains(b)` under the specification's containment:
`r` contains both, and no prefix of greater length contains both.  (For
`min(a.len, b.len) = 0` the `uint8` computation `min - 1` wraps to 255 and
the result is nonsense — see the counterexample.) -/
theorem getSupernet_longest (a b : Pfx)
    (ha : a.addr < 2 ^ 32) (hb : b.addr < 2 ^ 32)
    (hla : a.pfxlen ≤ 32) (hlb : b.pfxlen ≤ 32)
    (hmin : 1 ≤ min a.pfxlen b.pfxlen) (hne : a ≠ b) :
    specContains (a.GetSupernet b) a ∧ specContains (a.GetSupernet b) b ∧
    ∀ r : Pfx, r.pfxlen > (a.GetSupernet b).pfxlen →
      ¬(specContains r a ∧ specContains r b) := by
  have hm32 : min a.pfxlen b.pfxlen ≤ 32 := by omega
  have hsub : sub8 (min a.pfxlen b.pfxlen) 1 = min a.pfxlen b.pfxlen - 1 := by
    simp only [sub8]
    omega
  have hmle : min a.pfxlen b.pfxlen - 1 ≤ 31 := by omega
  have hcnt : (32 + 256 - (min a.pfxlen b.pfxlen - 1)) % 256 =
      32 - (min a.pfxlen b.pfxlen - 1) := by omega
  obtain ⟨K, hK, hloop, heqK, hnel⟩ :=
    snLoop_spec a.addr b.addr ha hb (min a.pfxlen b.pfxlen - 1) hmle
  have hres : a.GetSupernet b =
      ⟨shl32 (a.addr >>> (32 - K)) ((32 + 256 - K) % 256), K⟩ := by
    simp only [Pfx.GetSupernet, hsub, hcnt, hloop]
  have hKcnt : (32 + 256 - K) % 256 = 32 - K := by omega
  have hvlt : a.addr >>> (32 - K) < 2 ^ K := by
    rw [Nat.shiftRight_eq_div_pow]
    rw [Nat.div_lt_iff_lt_mul (Nat.pos_pow_of_pos _ (by omega))]
    calc a.addr < 2 ^ 32 := ha
      _ = 2 ^ K * 2 ^ (32 - K) := by rw [← pow_add]; congr 1; omega
  have hshl : shl32 (a.addr >>> (32 - K)) (32 - K) =
      (a.addr >>> (32 - K)) * 2 ^ (32 - K) := by
    simp only [shl32, Nat.shiftLeft_eq]
    apply Nat.mod_eq_of_lt
    calc (a.addr >>> (32 - K)) * 2 ^ (32 - K) < 2 ^ K * 2 ^ (32 - K) := by
          exact (Nat.mul_lt_mul_right (Nat.pos_pow_of_pos _ (by omega))).mpr hvlt
      _ = 2 ^ 32 := by rw [← pow_add]; congr 1; omega
  have hraddr : (a.GetSupernet b).addr = (a.addr >>> (32 - K)) * 2 ^ (32 - K) := by
    rw [hres]
    simp only [hKcnt, hshl]
  have hrlen : (a.GetSupernet b).pfxlen = K := by rw [hres]
  have hback : ((a.addr >>> (32 - K)) * 2 ^ (32 - K)) >>> (32 - K) =
      a.addr >>> (32 - K) := by
    rw [Nat.shiftRight_eq_div_pow]
    exact Nat.mul_div_cancel _ (Nat.pos_pow_of_pos _ (by omega))
  refine ⟨⟨?_, ?_⟩, ⟨?_, ?_⟩, ?_⟩
  · rw [hrlen]; omega
  · rw [hrlen, hraddr, hback]
  · rw [hrlen]; omega
  · rw [hrlen, hraddr, hback]
    exact heqK.symm
  · intro r hr hcon
    obtain ⟨⟨hra1, hra2⟩, ⟨hrb1, hrb2⟩⟩ := hcon
    have hrm : r.pfxlen ≤ min a.pfxlen b.pfxlen - 1 := by omega
    rw [hrlen] at hr
    exact hnel r.pfxlen hr hrm (by rw [hra2, hrb2])

/-- Witness for `getSupernet_longest`, at the disjoint pair 10.0.0.0/8 and
11.100.123.0/24 (the computed supernet is 10.0.0.0/7, which contains
both). -/
theorem getSupernet_longest_witness :
    specContains (Pfx.GetSupernet ⟨0x0A000000, 8⟩ ⟨0x0B647B00, 24⟩) ⟨0x0A000000, 8⟩ ∧
    specContains (Pfx.GetSupernet ⟨0x0A000000, 8⟩ ⟨0x0B647B00, 24⟩) ⟨0x0B647B00, 24⟩ :=
  ⟨(getSupernet_longest ⟨0x0A000000, 8⟩ ⟨0x0B647B00, 24⟩ (by decide) (by decide)
      (by decide) (by decide) (by decide) (by decide)).1,
   (getSupernet_longest ⟨0x0A000000, 8⟩ ⟨0x0B647B00, 24⟩ (by decide) (by decide)
      (by decide) (by decide) (by decide) (by decide)).2.1⟩

end TBGP
